import Mathlib

/-!
Verification development for the `ai-concepts-2026` repository: an educational
notebook (`demo.ipynb`) whose single substantial code cell defines and runs a
`MultiModalEncoder` (BERT text encoder + two-layer metadata perceptron + fusion
MLP), two placeholder stub cells, and a plain-text dependency manifest.

The embedding below is a shallow one:
  * tensors are rational matrices (lists of row vectors);
  * `nn.Linear` layers carry their declared in/out feature counts and their
    (randomly initialised, hence parametric) weights; applying a layer to a
    batch fails (returns `none`) exactly when PyTorch would raise a shape
    mismatch;
  * the pretrained BERT model is abstracted to its pooler-output function,
    the only part of it the notebook's forward pass consumes;
  * the notebook's code cells are additionally embedded at statement level as
    a small Python statement syntax, so that purely syntactic claims (absence
    of try/except, number of executed forward passes, the shape of the stub
    cells) can be settled;
  * the dependency manifest is embedded line by line as string literals.
-/

namespace AIC

/-! ## Tensors: rational matrices -/

abbrev Vec := List ℚ

abbrev Mat := List Vec

/-- A matrix has shape (r, c): r rows, every row of length c. -/
def hasShape (m : Mat) (r c : Nat) : Prop :=
  m.length = r ∧ ∀ row ∈ m, row.length = c

instance (m : Mat) (r c : Nat) : Decidable (hasShape m r c) := by
  unfold hasShape; infer_instance

/-- Dot product of two equal-length vectors. -/
def dot (x y : Vec) : ℚ := (List.zipWith (fun a b => a * b) x y).sum

/-- The ReLU activation on a single scalar: `max(x, 0)`. -/
def reluQ (x : ℚ) : ℚ := if x < 0 then 0 else x

/-- `nn.ReLU` applied elementwise to a matrix (always shape-preserving). -/
def reluMat (m : Mat) : Mat := m.map (fun row => row.map reluQ)

/-! ## `nn.Linear` -/

/-- `nn.Linear(inFeatures, outFeatures)`: weight is an
`outFeatures x inFeatures` matrix, bias a vector of length `outFeatures`.
The weight values are parameters of the embedding (PyTorch initialises them
randomly). -/
structure Linear where
  inFeatures : Nat
  outFeatures : Nat
  weight : Mat
  bias : Vec

/-- Well-formedness of a linear layer: its weight and bias match its declared
feature counts (true of every layer PyTorch constructs). -/
def Linear.wf (l : Linear) : Prop :=
  hasShape l.weight l.outFeatures l.inFeatures ∧ l.bias.length = l.outFeatures

instance (l : Linear) : Decidable l.wf := by
  unfold Linear.wf; infer_instance

/-- Apply a linear layer to one input row: `W x + b`. Fails (as PyTorch raises
a shape error) when the row length differs from `inFeatures`. -/
def Linear.applyVec (l : Linear) (x : Vec) : Option Vec :=
  if x.length = l.inFeatures then
    some (List.zipWith (fun wrow b => dot wrow x + b) l.weight l.bias)
  else
    none

/-- Apply a linear layer row-wise to a batch. -/
def Linear.applyMat (l : Linear) (m : Mat) : Option Mat :=
  m.mapM l.applyVec

/-! ## `nn.Sequential` over Linear / ReLU layers -/

inductive Layer where
  | linear : Linear → Layer
  | relu : Layer

def Layer.apply : Layer → Mat → Option Mat
  | .linear l, m => l.applyMat m
  | .relu, m => some (reluMat m)

/-- `nn.Sequential(layers)` applied to a batch. -/
def seqApply (layers : List Layer) (m : Mat) : Option Mat :=
  layers.foldlM (fun acc l => l.apply acc) m

/-! ## The pretrained BERT model, abstracted to its pooler output -/

/-- Tokeniser output: a batch of token-id sequences with attention masks
(as produced by `tokenizer(text, return_tensors="pt", ...)`). -/
structure TextInputs where
  input_ids : List (List Nat)
  attention_mask : List (List Nat)
deriving DecidableEq

/-- `BertModel.from_pretrained('bert-base-uncased')`, abstracted to the only
behaviour the notebook consumes: the map from tokenised inputs to the
`pooler_output` matrix. Different pretrained weight assignments give
different such functions. -/
structure BertModel where
  pooler : TextInputs → Mat

/-- The library contract for BERT with hidden size `d`: the pooler output of a
batch is one row of width `d` per input sequence. -/
def BertModel.outputShape (b : BertModel) (d : Nat) : Prop :=
  ∀ t : TextInputs, hasShape (b.pooler t) t.input_ids.length d

/-! ## `torch.cat(..., dim=1)` -/

/-- `torch.cat([a, b], dim=1)` on 2-D tensors: rows are concatenated pairwise;
fails when the batch sizes differ. -/
def catDim1 (a b : Mat) : Option Mat :=
  if a.length = b.length then some (List.zipWith (fun r1 r2 => r1 ++ r2) a b)
  else none

/-! ## `MultiModalEncoder` (from `demo.ipynb`, encoder-stacking cell) -/

/-- The four module attributes `__init__` assigns to `self`. -/
structure MultiModalEncoder where
  text_encoder : BertModel
  text_projection : Linear
  metadata_encoder : List Layer
  fusion : List Layer

/-- The non-pretrained weights `__init__` creates (PyTorch initialises them
randomly, so the embedding takes them as parameters): the projection layer and
the two linear layers of each of the two `nn.Sequential` blocks. -/
structure InitWeights where
  tpW : Mat
  tpB : Vec
  m1W : Mat
  m1B : Vec
  m2W : Mat
  m2B : Vec
  f1W : Mat
  f1B : Vec
  f2W : Mat
  f2B : Vec

/-- `MultiModalEncoder.__init__(text_dim, metadata_dim, output_dim)`, with the
pretrained BERT model and the fresh random weights as parameters:

  self.text_encoder = BertModel.from_pretrained('bert-base-uncased')
  self.text_projection = nn.Linear(text_dim, output_dim)
  self.metadata_encoder = nn.Sequential(
      nn.Linear(metadata_dim, 128), nn.ReLU(), nn.Linear(128, output_dim))
  self.fusion = nn.Sequential(
      nn.Linear(output_dim * 2, output_dim), nn.ReLU(),
      nn.Linear(output_dim, output_dim))
-/
def MultiModalEncoder.init (pretrained : BertModel) (w : InitWeights)
    (text_dim metadata_dim output_dim : Nat) : MultiModalEncoder :=
  { text_encoder := pretrained
    text_projection := ⟨text_dim, output_dim, w.tpW, w.tpB⟩
    metadata_encoder :=
      [Layer.linear ⟨metadata_dim, 128, w.m1W, w.m1B⟩,
       Layer.relu,
       Layer.linear ⟨128, output_dim, w.m2W, w.m2B⟩]
    fusion :=
      [Layer.linear ⟨output_dim * 2, output_dim, w.f1W, w.f1B⟩,
       Layer.relu,
       Layer.linear ⟨output_dim, output_dim, w.f2W, w.f2B⟩] }

/-- The default-argument call `MultiModalEncoder()` made by the demo cell:
`text_dim=768, metadata_dim=10, output_dim=256`. -/
def MultiModalEncoder.initDefault (pretrained : BertModel) (w : InitWeights) :
    MultiModalEncoder :=
  MultiModalEncoder.init pretrained w 768 10 256

/-- `MultiModalEncoder.forward(text_inputs, metadata)`:

  text_outputs = self.text_encoder(**text_inputs)
  text_features = self.text_projection(text_outputs.pooler_output)
  metadata_features = self.metadata_encoder(metadata)
  combined = torch.cat([text_features, metadata_features], dim=1)
  fused_features = self.fusion(combined)
  return fused_features, text_features, metadata_features
-/
def MultiModalEncoder.forward (m : MultiModalEncoder) (text_inputs : TextInputs)
    (metadata : Mat) : Option (Mat × Mat × Mat) := do
  let text_outputs := m.text_encoder.pooler text_inputs
  let text_features ← m.text_projection.applyMat text_outputs
  let metadata_features ← seqApply m.metadata_encoder metadata
  let combined ← catDim1 text_features metadata_features
  let fused_features ← seqApply m.fusion combined
  return (fused_features, text_features, metadata_features)

/-- The list of module blocks `__init__` builds, in assignment order. Each
`self.<attr> = <module>` line contributes one block. -/
inductive ModuleBlock where
  | bertBlock : BertModel → ModuleBlock
  | linearBlock : Linear → ModuleBlock
  | sequentialBlock : List Layer → ModuleBlock

def MultiModalEncoder.blocks (m : MultiModalEncoder) : List ModuleBlock :=
  [ModuleBlock.bertBlock m.text_encoder,
   ModuleBlock.linearBlock m.text_projection,
   ModuleBlock.sequentialBlock m.metadata_encoder,
   ModuleBlock.sequentialBlock m.fusion]

/-- State-threaded reading of `forward`: the method body line by line, carrying
the object (`self`) and the argument tensors through every statement and
returning them alongside the result. No statement of the source assigns to
`self.<attr>` or to a parameter, and no in-place tensor operation occurs, so
each line only binds a fresh local. -/
def MultiModalEncoder.forwardRun (m : MultiModalEncoder)
    (text_inputs : TextInputs) (metadata : Mat) :
    MultiModalEncoder × TextInputs × Mat × Option (Mat × Mat × Mat) :=
  let text_outputs := m.text_encoder.pooler text_inputs
  let text_features := m.text_projection.applyMat text_outputs
  let metadata_features := seqApply m.metadata_encoder metadata
  let result :=
    text_features.bind (fun tf =>
      metadata_features.bind (fun mf =>
        (catDim1 tf mf).bind (fun combined =>
          (seqApply m.fusion combined).bind (fun fused =>
            some (fused, tf, mf)))))
  (m, text_inputs, metadata, result)

/-! ## Statement-level syntax of the notebook's code cells

A small Python statement syntax, rich enough to transcribe every code cell of
`demo.ipynb` and to express the syntactic claims (absence of try/except,
absence of branching in `forward`, number of executed forward passes, the
shape of the stub cells). An assignment records its target text and the number
of `MultiModalEncoder` forward invocations (`model(...)` calls) its right-hand
side performs; an `if` records the runtime value of its condition so that
execution stays deterministic; a `for` records its iteration count. -/

inductive PyStmt where
  | sPrint : PyStmt
  | sMagic : PyStmt
  | sImport : PyStmt
  | sComment : PyStmt
  | sClassDef : List (List PyStmt) → PyStmt
  | sAssign : String → Nat → PyStmt
  | sExpr : Nat → PyStmt
  | sReturn : PyStmt
  | sIf : Bool → List PyStmt → List PyStmt → PyStmt
  | sFor : Nat → List PyStmt → PyStmt
  | sWith : List PyStmt → PyStmt
  | sTryExcept : List PyStmt → List PyStmt → PyStmt

mutual

/-- Number of try/except constructs in a statement, at any nesting depth
(method bodies of a class definition included). -/
def tryCountS : PyStmt → Nat
  | PyStmt.sTryExcept b h => 1 + tryCountL b + tryCountL h
  | PyStmt.sIf _ a b => tryCountL a + tryCountL b
  | PyStmt.sFor _ b => tryCountL b
  | PyStmt.sWith b => tryCountL b
  | PyStmt.sClassDef ms => tryCountM ms
  | _ => 0

def tryCountL : List PyStmt → Nat
  | [] => 0
  | s :: rest => tryCountS s + tryCountL rest

def tryCountM : List (List PyStmt) → Nat
  | [] => 0
  | m :: rest => tryCountL m + tryCountM rest

end

/-- Number of try/except constructs in a whole list of code cells. -/
def tryCountCells (cells : List (List PyStmt)) : Nat := tryCountM cells

mutual

/-- Number of `MultiModalEncoder` forward invocations a statement executes.
A class definition executes none (its method bodies only run when called
later); a loop body runs once per iteration. -/
def modelCallsS : PyStmt → Nat
  | PyStmt.sAssign _ n => n
  | PyStmt.sExpr n => n
  | PyStmt.sIf c a b => if c then modelCallsL a else modelCallsL b
  | PyStmt.sFor iters b => iters * modelCallsL b
  | PyStmt.sWith b => modelCallsL b
  | PyStmt.sTryExcept b h => modelCallsL b + modelCallsL h
  | _ => 0

def modelCallsL : List PyStmt → Nat
  | [] => 0
  | s :: rest => modelCallsS s + modelCallsL rest

end

/-- Number of forward invocations executed across a list of code cells. -/
def modelCallsCells : List (List PyStmt) → Nat
  | [] => 0
  | c :: rest => modelCallsL c + modelCallsCells rest

/-- A simple (non-compound) statement: no conditional, no loop, no `with`
block, no try/except, no nested definition. -/
def PyStmt.isSimple : PyStmt → Bool
  | PyStmt.sClassDef _ => false
  | PyStmt.sIf _ _ _ => false
  | PyStmt.sFor _ _ => false
  | PyStmt.sWith _ => false
  | PyStmt.sTryExcept _ _ => false
  | _ => true

/-- A straight-line body: every statement is simple. -/
def straightLine (l : List PyStmt) : Bool := l.all PyStmt.isSimple

/-- Every assignment in a flat statement list writes a target from `allowed`
(used to state that `forward` only binds fresh locals, never an attribute of
`self` or a parameter). -/
def assignTargets : List PyStmt → List String
  | [] => []
  | PyStmt.sAssign t _ :: rest => t :: assignTargets rest
  | _ :: rest => assignTargets rest

/-! ### Deterministic execution with a failure oracle

`oracle s = true` means the underlying library call made by the leaf
statement `s` raises. Compound statements recurse; a try/except block runs
its handler when its body raises; everything else propagates. -/

inductive Outcome where
  | ok : Outcome
  | raised : Outcome
deriving DecidableEq

mutual

def execS (oracle : PyStmt → Bool) : PyStmt → Outcome
  | PyStmt.sComment => Outcome.ok
  | PyStmt.sIf c a b => if c then execL oracle a else execL oracle b
  | PyStmt.sFor iters b => if iters = 0 then Outcome.ok else execL oracle b
  | PyStmt.sWith b => execL oracle b
  | PyStmt.sTryExcept b h =>
      match execL oracle b with
      | Outcome.raised => execL oracle h
      | Outcome.ok => Outcome.ok
  | s => if oracle s then Outcome.raised else Outcome.ok

def execL (oracle : PyStmt → Bool) : List PyStmt → Outcome
  | [] => Outcome.ok
  | s :: rest =>
      match execS oracle s with
      | Outcome.raised => Outcome.raised
      | Outcome.ok => execL oracle rest

end

/-- Execution of a list of cells in order (a raise aborts the run). -/
def execCells (oracle : PyStmt → Bool) : List (List PyStmt) → Outcome
  | [] => Outcome.ok
  | c :: rest =>
      match execL oracle c with
      | Outcome.raised => Outcome.raised
      | Outcome.ok => execCells oracle rest

mutual

/-- Whether some library call that this statement actually executes raises
under `oracle`. (Not defined under try/except: all uses assume try-free
code.) -/
def anyRaiseS (oracle : PyStmt → Bool) : PyStmt → Bool
  | PyStmt.sComment => false
  | PyStmt.sIf c a b => if c then anyRaiseL oracle a else anyRaiseL oracle b
  | PyStmt.sFor iters b => if iters = 0 then false else anyRaiseL oracle b
  | PyStmt.sWith b => anyRaiseL oracle b
  | PyStmt.sTryExcept _ _ => false
  | s => oracle s

def anyRaiseL (oracle : PyStmt → Bool) : List PyStmt → Bool
  | [] => false
  | s :: rest => anyRaiseS oracle s || anyRaiseL oracle rest

end

def anyRaiseCells (oracle : PyStmt → Bool) : List (List PyStmt) → Bool
  | [] => false
  | c :: rest => anyRaiseL oracle c || anyRaiseCells oracle rest

/-! ## Transcription of the code cells of `demo.ipynb`

Statement-by-statement transcription of each code cell, in notebook order.
Blank lines are dropped; `#` comment lines are `sComment`; docstrings (string
literal expression statements, which cannot raise) are transcribed as
`sComment` as well. An assignment records its target text and how many
`model(...)` forward invocations its right-hand side makes. -/

/-- Body of `MultiModalEncoder.__init__`: `super().__init__()` followed by the
four `self.<module> = ...` assignments, with interleaved comments. -/
def initBody : List PyStmt :=
  [PyStmt.sExpr 0,
   PyStmt.sComment,
   PyStmt.sAssign "self.text_encoder" 0,
   PyStmt.sComment,
   PyStmt.sAssign "self.text_projection" 0,
   PyStmt.sComment,
   PyStmt.sAssign "self.metadata_encoder" 0,
   PyStmt.sComment,
   PyStmt.sAssign "self.fusion" 0]

/-- Body of `MultiModalEncoder.forward`: docstring, then five assignments to
fresh locals, then the return of the triple. -/
def forwardBody : List PyStmt :=
  [PyStmt.sComment,
   PyStmt.sComment,
   PyStmt.sAssign "text_outputs" 0,
   PyStmt.sComment,
   PyStmt.sAssign "text_features" 0,
   PyStmt.sComment,
   PyStmt.sAssign "metadata_features" 0,
   PyStmt.sComment,
   PyStmt.sAssign "combined" 0,
   PyStmt.sComment,
   PyStmt.sAssign "fused_features" 0,
   PyStmt.sReturn]

/-- The dependency-install cell: `!pip install ...` then one print. -/
def installCell : List PyStmt :=
  [PyStmt.sMagic, PyStmt.sPrint]

/-- The encoder-stacking demonstration cell. The three `model(...)` forward
invocations sit inside the three `with torch.no_grad():` blocks; the sample
value loop iterates over the 10 values of `fused_features[0][:10]`. -/
def demoCell : List PyStmt :=
  [PyStmt.sPrint,
   PyStmt.sPrint,
   PyStmt.sImport,
   PyStmt.sImport,
   PyStmt.sImport,
   PyStmt.sImport,
   PyStmt.sClassDef [initBody, forwardBody],
   PyStmt.sComment,
   PyStmt.sAssign "tokenizer" 0,
   PyStmt.sAssign "model" 0,
   PyStmt.sComment,
   PyStmt.sAssign "text" 0,
   PyStmt.sComment,
   PyStmt.sComment,
   PyStmt.sAssign "metadata" 0,
   PyStmt.sPrint,
   PyStmt.sPrint,
   PyStmt.sPrint,
   PyStmt.sPrint,
   PyStmt.sPrint,
   PyStmt.sComment,
   PyStmt.sAssign "text_inputs" 0,
   PyStmt.sPrint,
   PyStmt.sPrint,
   PyStmt.sComment,
   PyStmt.sWith [PyStmt.sAssign "fused_features, text_features, metadata_features" 1],
   PyStmt.sPrint,
   PyStmt.sPrint,
   PyStmt.sPrint,
   PyStmt.sPrint,
   PyStmt.sPrint,
   PyStmt.sPrint,
   PyStmt.sPrint,
   PyStmt.sPrint,
   PyStmt.sPrint,
   PyStmt.sPrint,
   PyStmt.sComment,
   PyStmt.sAssign "text_magnitude" 0,
   PyStmt.sAssign "metadata_magnitude" 0,
   PyStmt.sAssign "fused_magnitude" 0,
   PyStmt.sPrint,
   PyStmt.sPrint,
   PyStmt.sPrint,
   PyStmt.sPrint,
   PyStmt.sPrint,
   PyStmt.sAssign "sample_values" 0,
   PyStmt.sFor 10 [PyStmt.sPrint],
   PyStmt.sPrint,
   PyStmt.sPrint,
   PyStmt.sPrint,
   PyStmt.sPrint,
   PyStmt.sPrint,
   PyStmt.sPrint,
   PyStmt.sPrint,
   PyStmt.sComment,
   PyStmt.sPrint,
   PyStmt.sComment,
   PyStmt.sAssign "text2" 0,
   PyStmt.sAssign "text_inputs2" 0,
   PyStmt.sWith [PyStmt.sAssign "fused_features2, _, _" 1],
   PyStmt.sComment,
   PyStmt.sAssign "similarity" 0,
   PyStmt.sPrint,
   PyStmt.sPrint,
   PyStmt.sComment,
   PyStmt.sAssign "metadata2" 0,
   PyStmt.sWith [PyStmt.sAssign "fused_features3, _, _" 1],
   PyStmt.sAssign "similarity2" 0,
   PyStmt.sPrint,
   PyStmt.sPrint]

/-- The Self-Adapting Models placeholder cell: two prints and the
`# Replace this comment with your actual code` comment. -/
def stubCellAdapt : List PyStmt :=
  [PyStmt.sPrint, PyStmt.sPrint, PyStmt.sComment]

/-- The Reasoning Models placeholder cell: two prints and the
`# Replace this comment with your actual code` comment. -/
def stubCellReason : List PyStmt :=
  [PyStmt.sPrint, PyStmt.sPrint, PyStmt.sComment]

/-- All four code cells of `demo.ipynb`, in order. -/
def notebookCells : List (List PyStmt) :=
  [installCell, demoCell, stubCellAdapt, stubCellReason]

/-- A placeholder stub cell: exactly two print statements followed by a
placeholder comment, nothing else. -/
def isStubCell : List PyStmt → Bool
  | [PyStmt.sPrint, PyStmt.sPrint, PyStmt.sComment] => true
  | _ => false

/-- The local names `forward` binds. -/
def forwardLocals : List String :=
  ["text_outputs", "text_features", "metadata_features", "combined",
   "fused_features"]

/-! ## The dependency manifest (`requirements.txt`), line by line -/

def manifestLines : List String :=
  ["# Core ML and AI libraries",
   "torch>=1.9.0",
   "transformers>=4.20.0",
   "numpy>=1.21.0",
   "scipy>=1.7.0",
   "",
   "# Visualization and plotting",
   "matplotlib>=3.5.0",
   "seaborn>=0.11.0",
   "",
   "# Scientific computing",
   "sympy>=1.9.0",
   "pandas>=1.3.0",
   "",
   "# System monitoring and utilities",
   "psutil>=5.8.0",
   "",
   "# Text processing",
   "tokenizers>=0.13.0",
   "",
   "# Optional: For better performance",
   "# torch-audio>=0.9.0  # Uncomment if audio processing needed",
   "# pillow>=8.3.0       # Uncomment if image processing needed",
   "",
   "# Development and testing (optional)",
   "jupyter>=1.0.0",
   "ipython>=7.25.0",
   "",
   "# For 3D visualization (optional)",
   "# plotly>=5.0.0       # Uncomment for interactive 3D plots",
   "# open3d>=0.13.0      # Uncomment for advanced 3D processing"]

def dropSpaces : List Char → List Char
  | ' ' :: rest => dropSpaces rest
  | cs => cs

/-- A blank line: only spaces. -/
def isBlankLine (s : String) : Bool :=
  dropSpaces s.data = []

/-- A comment line: first non-space character is `#`. -/
def isCommentLine (s : String) : Bool :=
  match dropSpaces s.data with
  | '#' :: _ => true
  | _ => false

/-- Split a character list at the first occurrence of the two-character
sequence `>=`, returning the parts before and after it. -/
def splitAtGe : List Char → Option (List Char × List Char)
  | [] => none
  | '>' :: '=' :: rest => some ([], rest)
  | c :: rest =>
      match splitAtGe rest with
      | some (pre, post) => some (c :: pre, post)
      | none => none

/-- A character allowed in a package name (PyPI names in this manifest use
letters, digits, hyphens and underscores). -/
def isNameChar (c : Char) : Bool :=
  c.isAlpha || c.isDigit || c = '-' || c = '_'

/-- A character allowed in a version literal: digits and dots. -/
def isVersionChar (c : Char) : Bool :=
  c.isDigit || c = '.'

/-- The line has the form `<package>>=<version>`: a nonempty package name, the
floor operator `>=`, and a nonempty numeric version — and nothing else, so in
particular no exact pin (`==`), no upper bound (`<`, `<=`), and no second
specifier. -/
def isVersionFloorLine (s : String) : Bool :=
  match splitAtGe s.data with
  | some (name, ver) =>
      !name.isEmpty && name.all isNameChar && !ver.isEmpty &&
        ver.all isVersionChar
  | none => false

/-! ## Well-formedness of the constructor's fresh weights -/

/-- The shapes PyTorch gives the randomly initialised weights of
`__init__(text_dim, metadata_dim, output_dim)`: each weight matrix is
`outFeatures x inFeatures` and each bias has length `outFeatures` for the
layer it initialises. -/
def InitWeights.wf (w : InitWeights)
    (text_dim metadata_dim output_dim : Nat) : Prop :=
  hasShape w.tpW output_dim text_dim ∧ w.tpB.length = output_dim ∧
  hasShape w.m1W 128 metadata_dim ∧ w.m1B.length = 128 ∧
  hasShape w.m2W output_dim 128 ∧ w.m2B.length = output_dim ∧
  hasShape w.f1W output_dim (output_dim * 2) ∧ w.f1B.length = output_dim ∧
  hasShape w.f2W output_dim output_dim ∧ w.f2B.length = output_dim

instance (w : InitWeights) (a b c : Nat) : Decidable (w.wf a b c) := by
  unfold InitWeights.wf; infer_instance

/-! ## Small concrete instances (used to evaluate the development on
concrete inputs) -/

/-- A pretrained model whose pooler returns the single row `[0]`. -/
def zeroBert : BertModel := ⟨fun _ => [[0]]⟩

/-- A pretrained model whose pooler returns the single row `[1]`. -/
def oneBert : BertModel := ⟨fun _ => [[1]]⟩

/-- Concrete fresh weights fitting `text_dim = metadata_dim = output_dim = 1`:
the projection and fusion layers pass their first coordinate through, the
metadata perceptron (whose hidden layer is 128 wide, as in the source) maps
everything to zero. -/
def wSmall : InitWeights :=
  { tpW := [[1]], tpB := [0]
    m1W := List.replicate 128 [0], m1B := List.replicate 128 0
    m2W := [List.replicate 128 0], m2B := [0]
    f1W := [[1, 0]], f1B := [0]
    f2W := [[1]], f2B := [0] }

/-- A tokenised one-sentence batch. -/
def tInput : TextInputs := ⟨[[101, 102]], [[1, 1]]⟩

/-- A one-row metadata batch with one feature. -/
def mdInput : Mat := [[0]]

/-- The encoder the constructor builds from a given pretrained model, the
small weights, and dimensions (1, 1, 1). -/
def smallEncoder (b : BertModel) : MultiModalEncoder :=
  MultiModalEncoder.init b wSmall 1 1 1

/-- A minimal encoder instance (not built by `init`): every block is a single
pass-through linear layer, so evaluation stays small. -/
def tinyEncoder : MultiModalEncoder :=
  { text_encoder := zeroBert
    text_projection := ⟨1, 1, [[1]], [0]⟩
    metadata_encoder := [Layer.linear ⟨1, 1, [[1]], [0]⟩]
    fusion := [Layer.linear ⟨2, 1, [[1, 0]], [0]⟩] }

/-! ## Helper lemmas -/

theorem applyVec_some_shape (l : Linear) (x : Vec) (hwf : l.wf)
    (hx : x.length = l.inFeatures) :
    ∃ y, l.applyVec x = some y ∧ y.length = l.outFeatures := by
  refine ⟨List.zipWith (fun wrow b => dot wrow x + b) l.weight l.bias, ?_, ?_⟩
  · simp [Linear.applyVec, hx]
  · simp [List.length_zipWith, hwf.1.1, hwf.2]

theorem applyMat_some_shape (l : Linear) (hwf : l.wf) :
    ∀ (x : Mat) (n : Nat), hasShape x n l.inFeatures →
      ∃ y, l.applyMat x = some y ∧ hasShape y n l.outFeatures := by
  intro x
  induction x with
  | nil =>
    intro n h
    exact ⟨[], rfl, h.1, by simp⟩
  | cons row rest ih =>
    intro n h
    obtain ⟨hlen, hrows⟩ := h
    obtain ⟨r, hr, hrlen⟩ := applyVec_some_shape l row hwf (hrows row (by simp))
    obtain ⟨ys, hys, hyslen, hysrows⟩ :=
      ih rest.length ⟨rfl, fun q hq => hrows q (by simp [hq])⟩
    refine ⟨r :: ys, ?_, ?_, ?_⟩
    · simp only [Linear.applyMat] at hys ⊢
      rw [List.mapM_cons, hr, hys]
      rfl
    · simp only [List.length_cons] at hlen ⊢
      omega
    · intro q hq
      rcases List.mem_cons.mp hq with h1 | h2
      · rw [h1]; exact hrlen
      · exact hysrows q h2

theorem reluMat_shape (x : Mat) (n c : Nat) (h : hasShape x n c) :
    hasShape (reluMat x) n c := by
  constructor
  · simp [reluMat, h.1]
  · intro row hrow
    simp only [reluMat, List.mem_map] at hrow
    obtain ⟨r, hr, hrow⟩ := hrow
    rw [← hrow]
    simp [h.2 r hr]

theorem zipWith_append_shape (a : Mat) :
    ∀ (b : Mat) (n c1 c2 : Nat), hasShape a n c1 → hasShape b n c2 →
      hasShape (List.zipWith (fun r1 r2 => r1 ++ r2) a b) n (c1 + c2) := by
  induction a with
  | nil =>
    intro b n c1 c2 ha hb
    refine ⟨by simpa using ha.1, ?_⟩
    intro row hrow
    simp at hrow
  | cons r as ih =>
    intro b n c1 c2 ha hb
    cases b with
    | nil =>
      exfalso
      have h1 := ha.1
      have h2 := hb.1
      simp at h1 h2
      omega
    | cons s bs =>
      have h1 := ha.1
      have h2 := hb.1
      simp only [List.length_cons] at h1 h2
      have hbs : hasShape bs as.length c2 :=
        ⟨by omega, fun q hq => hb.2 q (by simp [hq])⟩
      have has : hasShape as as.length c1 :=
        ⟨rfl, fun q hq => ha.2 q (by simp [hq])⟩
      refine ⟨?_, ?_⟩
      · simp only [List.zipWith_cons_cons, List.length_cons]
        rw [(ih bs as.length c1 c2 has hbs).1]
        omega
      · intro row hrow
        simp only [List.zipWith_cons_cons] at hrow
        rcases List.mem_cons.mp hrow with hc | hc
        · rw [hc]
          simp [ha.2 r (by simp), hb.2 s (by simp)]
        · exact (ih bs as.length c1 c2 has hbs).2 row hc

theorem catDim1_some_shape (a b : Mat) (n c1 c2 : Nat) (ha : hasShape a n c1)
    (hb : hasShape b n c2) :
    ∃ y, catDim1 a b = some y ∧ hasShape y n (c1 + c2) := by
  refine ⟨_, ?_, zipWith_append_shape a b n c1 c2 ha hb⟩
  simp [catDim1, ha.1, hb.1]

theorem seqApply_linear_relu_linear (l1 l2 : Linear) (x : Mat) :
    seqApply [Layer.linear l1, Layer.relu, Layer.linear l2] x =
      (l1.applyMat x).bind (fun y => l2.applyMat (reluMat y)) := by
  cases h : l1.applyMat x <;>
    simp [seqApply, List.foldlM, Layer.apply, h]

theorem metadata_component_eq (b1 b2 : BertModel) (w : InitWeights)
    (td md od : Nat) (t : TextInputs) (x : Mat) (r1 r2 : Mat × Mat × Mat)
    (h1 : (MultiModalEncoder.init b1 w td md od).forward t x = some r1)
    (h2 : (MultiModalEncoder.init b2 w td md od).forward t x = some r2) :
    r1.2.2 = r2.2.2 := by
  simp only [MultiModalEncoder.forward, MultiModalEncoder.init, bind, pure,
    Option.bind_eq_some] at h1 h2
  obtain ⟨tf1, htf1, mf1, hmf1, c1, hc1, f1, hf1, hr1⟩ := h1
  obtain ⟨tf2, htf2, mf2, hmf2, c2, hc2, f2, hf2, hr2⟩ := h2
  have hmf : mf1 = mf2 := Option.some.inj (hmf1.symm.trans hmf2)
  have e1 : r1 = (f1, tf1, mf1) := (Option.some.inj hr1).symm
  have e2 : r2 = (f2, tf2, mf2) := (Option.some.inj hr2).symm
  rw [e1, e2]
  exact hmf

mutual

theorem execS_raised_iff (oracle : PyStmt → Bool) :
    (s : PyStmt) → tryCountS s = 0 →
      (execS oracle s = Outcome.raised ↔ anyRaiseS oracle s = true)
  | PyStmt.sPrint, _ => by
    cases h : oracle PyStmt.sPrint <;> simp [execS, anyRaiseS, h]
  | PyStmt.sMagic, _ => by
    cases h : oracle PyStmt.sMagic <;> simp [execS, anyRaiseS, h]
  | PyStmt.sImport, _ => by
    cases h : oracle PyStmt.sImport <;> simp [execS, anyRaiseS, h]
  | PyStmt.sComment, _ => by simp [execS, anyRaiseS]
  | PyStmt.sClassDef ms, _ => by
    cases h : oracle (PyStmt.sClassDef ms) <;> simp [execS, anyRaiseS, h]
  | PyStmt.sAssign tgt k, _ => by
    cases h : oracle (PyStmt.sAssign tgt k) <;> simp [execS, anyRaiseS, h]
  | PyStmt.sExpr k, _ => by
    cases h : oracle (PyStmt.sExpr k) <;> simp [execS, anyRaiseS, h]
  | PyStmt.sReturn, _ => by
    cases h : oracle PyStmt.sReturn <;> simp [execS, anyRaiseS, h]
  | PyStmt.sIf c a b, htry => by
    simp only [tryCountS, Nat.add_eq_zero] at htry
    cases c with
    | false =>
      simpa [execS, anyRaiseS] using execL_raised_iff oracle b htry.2
    | true =>
      simpa [execS, anyRaiseS] using execL_raised_iff oracle a htry.1
  | PyStmt.sFor iters b, htry => by
    simp only [tryCountS] at htry
    cases iters with
    | zero => simp [execS, anyRaiseS]
    | succ k =>
      simpa [execS, anyRaiseS] using execL_raised_iff oracle b htry
  | PyStmt.sWith b, htry => by
    simp only [tryCountS] at htry
    simpa [execS, anyRaiseS] using execL_raised_iff oracle b htry
  | PyStmt.sTryExcept b h, htry => by
    simp only [tryCountS] at htry
    omega

theorem execL_raised_iff (oracle : PyStmt → Bool) :
    (l : List PyStmt) → tryCountL l = 0 →
      (execL oracle l = Outcome.raised ↔ anyRaiseL oracle l = true)
  | [], _ => by simp [execL, anyRaiseL]
  | s :: rest, htry => by
    have hs : tryCountS s = 0 ∧ tryCountL rest = 0 := by
      simp only [tryCountL, Nat.add_eq_zero] at htry
      exact htry
    cases hex : execS oracle s with
    | raised =>
      have hany : anyRaiseS oracle s = true :=
        (execS_raised_iff oracle s hs.1).mp hex
      simp [execL, hex, anyRaiseL, hany]
    | ok =>
      have hany : anyRaiseS oracle s = false := by
        cases hval : anyRaiseS oracle s
        · rfl
        · exact absurd ((execS_raised_iff oracle s hs.1).mpr hval)
            (by simp [hex])
      simpa [execL, hex, anyRaiseL, hany] using
        execL_raised_iff oracle rest hs.2

end

theorem execCells_raised_iff (oracle : PyStmt → Bool) :
    (cells : List (List PyStmt)) → tryCountCells cells = 0 →
      (execCells oracle cells = Outcome.raised ↔
        anyRaiseCells oracle cells = true)
  | [], _ => by simp [execCells, anyRaiseCells]
  | c :: rest, htry => by
    have hs : tryCountL c = 0 ∧ tryCountM rest = 0 := by
      simp only [tryCountCells, tryCountM, Nat.add_eq_zero] at htry
      exact htry
    cases hex : execL oracle c with
    | raised =>
      have hany : anyRaiseL oracle c = true :=
        (execL_raised_iff oracle c hs.1).mp hex
      simp [execCells, hex, anyRaiseCells, hany]
    | ok =>
      have hany : anyRaiseL oracle c = false := by
        cases hval : anyRaiseL oracle c
        · rfl
        · exact absurd ((execL_raised_iff oracle c hs.1).mpr hval)
            (by simp [hex])
      simpa [execCells, hex, anyRaiseCells, hany] using
        execCells_raised_iff oracle rest hs.2

/-! ## The claims -/

/-- Claim C1: for every tokenised text input and metadata tensor,
`MultiModalEncoder.forward` is a branch-free straight-line composition:
whenever the library calls produce values, it returns the triple
`(fused_features, text_features, metadata_features)` with
`text_features = text_projection(text_encoder(text_inputs).pooler_output)`,
`metadata_features = metadata_encoder(metadata)` and
`fused_features = fusion(cat([text_features, metadata_features], dim=1))`;
and the transcribed body of `forward` contains no conditional, loop, `with`
or error-handling construct other than its simple statements. -/
theorem forward_is_straightline_composition (m : MultiModalEncoder)
    (t : TextInputs) (md : Mat) (tf mf c f : Mat)
    (h1 : m.text_projection.applyMat (m.text_encoder.pooler t) = some tf)
    (h2 : seqApply m.metadata_encoder md = some mf)
    (h3 : catDim1 tf mf = some c)
    (h4 : seqApply m.fusion c = some f) :
    m.forward t md = some (f, tf, mf) ∧ straightLine forwardBody = true := by
  refine ⟨?_, by decide⟩
  simp [MultiModalEncoder.forward, h1, h2, h3, h4]

/-- Witness for C1: the composition evaluated at a concrete encoder
and concrete inputs. -/
theorem forward_is_straightline_composition_witness :
    tinyEncoder.forward tInput mdInput = some ([[0]], [[0]], [[0]]) :=
  (forward_is_straightline_composition tinyEncoder tInput mdInput
    [[0]] [[0]] [[0, 0]] [[0]]
    (by with_unfolding_all rfl) (by with_unfolding_all rfl)
    (by with_unfolding_all rfl) (by with_unfolding_all rfl)).1

/-- Claim C2 counterexample: the metadata-features output of a completed
forward pass never depends on the pretrained BERT weights — there is no pair
of pretrained-weight assignments under which it differs, refuting the claim
that every numeric output does. -/
theorem metadata_features_invariant_counterexample :
    ¬ ∃ (b1 b2 : BertModel) (r1 r2 : Mat × Mat × Mat),
        (MultiModalEncoder.init b1 wSmall 1 1 1).forward tInput mdInput
          = some r1 ∧
        (MultiModalEncoder.init b2 wSmall 1 1 1).forward tInput mdInput
          = some r2 ∧
        ¬ (r1.2.2 = r2.2.2) := by
  rintro ⟨b1, b2, r1, r2, h1, h2, hne⟩
  exact hne (metadata_component_eq b1 b2 wSmall 1 1 1 tInput mdInput r1 r2 h1 h2)

set_option maxRecDepth 400000 in
/-- Claim C2 (amended): the text features and fused features of a forward
pass can depend on the pretrained BERT weights (there are two assignments
under which both differ), but the metadata features of a completed forward
pass are invariant under every change of the pretrained weights. -/
theorem pretrained_weight_dependence_amended :
    (∀ (b1 b2 : BertModel) (w : InitWeights) (td md od : Nat)
        (t : TextInputs) (x : Mat) (r1 r2 : Mat × Mat × Mat),
        (MultiModalEncoder.init b1 w td md od).forward t x = some r1 →
        (MultiModalEncoder.init b2 w td md od).forward t x = some r2 →
        r1.2.2 = r2.2.2) ∧
    (∃ (b1 b2 : BertModel) (r1 r2 : Mat × Mat × Mat),
        (MultiModalEncoder.init b1 wSmall 1 1 1).forward tInput mdInput
          = some r1 ∧
        (MultiModalEncoder.init b2 wSmall 1 1 1).forward tInput mdInput
          = some r2 ∧
        ¬ (r1.2.1 = r2.2.1) ∧ ¬ (r1.1 = r2.1)) := by
  constructor
  · intro b1 b2 w td md od t x r1 r2 h1 h2
    exact metadata_component_eq b1 b2 w td md od t x r1 r2 h1 h2
  · refine ⟨zeroBert, oneBert, ([[0]], [[0]], [[0]]), ([[1]], [[1]], [[0]]),
      ?_, ?_, ?_, ?_⟩
    · with_unfolding_all rfl
    · with_unfolding_all rfl
    · with_unfolding_all decide
    · with_unfolding_all decide

set_option maxRecDepth 400000 in
/-- Witness for C2 (amended): the invariance conjunct applied at two concrete
pretrained models. -/
theorem pretrained_weight_dependence_amended_witness :
    (([[0]], [[0]], [[0]]) : Mat × Mat × Mat).2.2
      = (([[1]], [[1]], [[0]]) : Mat × Mat × Mat).2.2 :=
  pretrained_weight_dependence_amended.1 zeroBert oneBert wSmall 1 1 1
    tInput mdInput ([[0]], [[0]], [[0]]) ([[1]], [[1]], [[0]])
    (by with_unfolding_all rfl) (by with_unfolding_all rfl)

/-- Claim C3 counterexample: the constructor builds four module blocks
(`text_encoder`, `text_projection`, `metadata_encoder`, `fusion`), not
three. -/
theorem constructor_block_count_counterexample :
    ¬ ((MultiModalEncoder.init zeroBert wSmall 1 1 1).blocks.length = 3) := by
  decide

/-- Claim C3 (amended): the constructor builds exactly four layer blocks —
the BERT text encoder, the linear text projection, the sequential metadata
encoder and the sequential fusion block — and the forward pass composes
exactly those four blocks (projection applied to the text encoder's pooler
output, metadata encoder applied to the metadata, fusion applied to the
concatenation) and nothing else. -/
theorem constructor_four_blocks_amended (b : BertModel) (w : InitWeights)
    (td md od : Nat) (t : TextInputs) (x : Mat) :
    (MultiModalEncoder.init b w td md od).blocks.length = 4 ∧
    (MultiModalEncoder.init b w td md od).blocks =
      [ModuleBlock.bertBlock b,
       ModuleBlock.linearBlock ⟨td, od, w.tpW, w.tpB⟩,
       ModuleBlock.sequentialBlock
         [Layer.linear ⟨md, 128, w.m1W, w.m1B⟩, Layer.relu,
          Layer.linear ⟨128, od, w.m2W, w.m2B⟩],
       ModuleBlock.sequentialBlock
         [Layer.linear ⟨od * 2, od, w.f1W, w.f1B⟩, Layer.relu,
          Layer.linear ⟨od, od, w.f2W, w.f2B⟩]] ∧
    (MultiModalEncoder.init b w td md od).forward t x =
      ((MultiModalEncoder.init b w td md od).text_projection.applyMat
          ((MultiModalEncoder.init b w td md od).text_encoder.pooler t)).bind
        (fun tf =>
          (seqApply (MultiModalEncoder.init b w td md od).metadata_encoder
              x).bind
            (fun mf => (catDim1 tf mf).bind
              (fun c =>
                (seqApply (MultiModalEncoder.init b w td md od).fusion c).bind
                  (fun f => some (f, tf, mf))))) :=
  ⟨rfl, rfl, rfl⟩

/-- Claim C4: the metadata encoder is a hand-built two-layer perceptron —
exactly `Linear(metadata_dim, 128)`, one `ReLU`, and `Linear(128,
output_dim)`, and applying it is the composition of those layers. -/
theorem metadata_encoder_is_two_layer_perceptron (b : BertModel)
    (w : InitWeights) (td md od : Nat) :
    (MultiModalEncoder.init b w td md od).metadata_encoder =
      [Layer.linear ⟨md, 128, w.m1W, w.m1B⟩, Layer.relu,
       Layer.linear ⟨128, od, w.m2W, w.m2B⟩] ∧
    ∀ x : Mat,
      seqApply (MultiModalEncoder.init b w td md od).metadata_encoder x =
        (Linear.applyMat ⟨md, 128, w.m1W, w.m1B⟩ x).bind
          (fun y => Linear.applyMat ⟨128, od, w.m2W, w.m2B⟩ (reluMat y)) :=
  ⟨rfl, fun x => seqApply_linear_relu_linear _ _ x⟩

/-- Claim C5: no code cell of the notebook contains a try/except construct at
any nesting depth, and consequently, for every assignment of failures to the
library calls the cells make, the notebook run raises exactly when some
executed call raises — the exception propagates uncaught, with no
error-handling path to intercept it. -/
theorem no_exception_handling_uncaught_propagation (oracle : PyStmt → Bool) :
    tryCountCells notebookCells = 0 ∧
    (execCells oracle notebookCells = Outcome.raised ↔
      anyRaiseCells oracle notebookCells = true) :=
  ⟨by decide, execCells_raised_iff oracle notebookCells (by decide)⟩

/-- Claim C6 counterexample: the notebook executes three
`MultiModalEncoder` forward invocations, so the count is not one. -/
theorem single_forward_invocation_counterexample :
    ¬ (modelCallsCells notebookCells = 1) := by decide

/-- Claim C6 (amended): across all code cells the notebook executes exactly
three forward invocations of `MultiModalEncoder` — the initial demonstration
pass and the two comparison passes. -/
theorem three_forward_invocations_amended :
    modelCallsCells notebookCells = 3 := by decide

/-- Claim C7: every non-blank, non-comment line of the dependency manifest
has the form `<package>>=<version>` — a version floor with no exact pin and
no upper bound; twelve such requirement lines occur. -/
theorem manifest_lines_are_version_floors :
    manifestLines.all
      (fun l => isBlankLine l || isCommentLine l || isVersionFloorLine l)
      = true ∧
    (manifestLines.filter (fun l => isVersionFloorLine l)).length = 12 := by
  decide

/-- Claim C8: the notebook contains exactly two placeholder stub cells — the
Self-Adapting Models cell and the Reasoning Models cell — each consisting of
two print statements and a placeholder comment only; no other code cell has
that form. -/
theorem exactly_two_placeholder_stub_cells :
    (notebookCells.filter (fun c => isStubCell c)).length = 2 ∧
    isStubCell stubCellAdapt = true ∧
    isStubCell stubCellReason = true ∧
    isStubCell installCell = false ∧
    isStubCell demoCell = false := by decide

/-- Claim C9: with well-formed constructor weights, a metadata batch of shape
`(n, metadata_dim)` and a pooler output of one `text_dim`-wide row per input
sequence, every tensor operation in `forward` is shape-compatible (the
concatenation's width `output_dim + output_dim` matches the fusion block's
input width `output_dim * 2`), so `forward` cannot raise a shape-mismatch
error and returns three tensors each of shape `(n, output_dim)`. -/
theorem forward_shape_safe (b : BertModel) (w : InitWeights)
    (text_dim metadata_dim output_dim n : Nat) (t : TextInputs) (x : Mat)
    (hw : w.wf text_dim metadata_dim output_dim)
    (hb : hasShape (b.pooler t) n text_dim)
    (hx : hasShape x n metadata_dim) :
    ∃ f tf mf,
      (MultiModalEncoder.init b w text_dim metadata_dim output_dim).forward t x
        = some (f, tf, mf) ∧
      hasShape f n output_dim ∧ hasShape tf n output_dim ∧
      hasShape mf n output_dim := by
  obtain ⟨hTp, hTpB, hM1, hM1B, hM2, hM2B, hF1, hF1B, hF2, hF2B⟩ := hw
  obtain ⟨tf, htf, htfs⟩ :=
    applyMat_some_shape ⟨text_dim, output_dim, w.tpW, w.tpB⟩ ⟨hTp, hTpB⟩
      (b.pooler t) n hb
  obtain ⟨y1, hy1, hy1s⟩ :=
    applyMat_some_shape ⟨metadata_dim, 128, w.m1W, w.m1B⟩ ⟨hM1, hM1B⟩ x n hx
  obtain ⟨mf, hmf, hmfs⟩ :=
    applyMat_some_shape ⟨128, output_dim, w.m2W, w.m2B⟩ ⟨hM2, hM2B⟩
      (reluMat y1) n (reluMat_shape y1 n 128 hy1s)
  obtain ⟨c, hc, hcs⟩ :=
    catDim1_some_shape tf mf n output_dim output_dim htfs hmfs
  obtain ⟨z1, hz1, hz1s⟩ :=
    applyMat_some_shape ⟨output_dim * 2, output_dim, w.f1W, w.f1B⟩
      ⟨hF1, hF1B⟩ c n (by rw [mul_two]; exact hcs)
  obtain ⟨f, hf, hfs⟩ :=
    applyMat_some_shape ⟨output_dim, output_dim, w.f2W, w.f2B⟩ ⟨hF2, hF2B⟩
      (reluMat z1) n (reluMat_shape z1 n output_dim hz1s)
  refine ⟨f, tf, mf, ?_, hfs, htfs, hmfs⟩
  simp [MultiModalEncoder.forward, MultiModalEncoder.init,
    seqApply_linear_relu_linear, htf, hy1, hmf, hc, hz1, hf]

set_option maxRecDepth 400000 in
/-- Witness for C9: shape safety evaluated at a concrete configuration with
batch size 1 and dimensions (1, 1, 1). -/
theorem forward_shape_safe_witness :
    ∃ f tf mf,
      (MultiModalEncoder.init zeroBert wSmall 1 1 1).forward tInput mdInput
        = some (f, tf, mf) ∧
      hasShape f 1 1 ∧ hasShape tf 1 1 ∧ hasShape mf 1 1 :=
  forward_shape_safe zeroBert wSmall 1 1 1 1 tInput mdInput
    (by decide) (by decide) (by decide)

/-- Claim C10: a call to `forward` mutates neither the model nor its argument
tensors: threading the object and the arguments through the body
statement-by-statement returns them unchanged (in particular the weights of
all four blocks are unchanged), the result is exactly the pure forward value,
and every assignment in the transcribed body of `forward` writes a fresh
local, never an attribute of `self` or a parameter. -/
theorem forward_mutates_nothing (m : MultiModalEncoder) (t : TextInputs)
    (md : Mat) :
    (m.forwardRun t md).1 = m ∧
    (m.forwardRun t md).2.1 = t ∧
    (m.forwardRun t md).2.2.1 = md ∧
    (m.forwardRun t md).2.2.2 = m.forward t md ∧
    (m.forwardRun t md).1.text_encoder = m.text_encoder ∧
    (m.forwardRun t md).1.text_projection = m.text_projection ∧
    (m.forwardRun t md).1.metadata_encoder = m.metadata_encoder ∧
    (m.forwardRun t md).1.fusion = m.fusion ∧
    (assignTargets forwardBody).all
      (fun tgt => forwardLocals.contains tgt) = true :=
  ⟨rfl, rfl, rfl, rfl, rfl, rfl, rfl, rfl, by decide⟩

end AIC
